import Mathlib

/-!
Verification of the credential gate component
(`lambda/core/credentials.go` of the AWS Lambda runtime interface emulator).

The component is an in-memory map from opaque tokens to credential records,
guarded by two mutexes: a content mutex protecting every read or write of the
map and of the state flag, and a service mutex ("the gate") that `BlockService`
leaves held so that subsequent `GetCredentials` calls wait until
`UnblockService` releases it.

Embedding choices, matching the source:
* The Go map `map[string]Credentials` is an association list with at most one
  entry per key (the operations preserve this, see `countKey` lemmas).
* The content mutex is acquired and released inside every operation
  (`defer ...Unlock()`), so it is never held between the atomic steps we
  model; it does not appear in the state.
* The service mutex can be held across calls (`BlockService` returns with it
  locked), so the state records whether it is held (`serviceMutex : Bool`,
  `true` = locked).
* `time.Now()` is threaded through as an explicit `now : Nat` parameter
  (nanoseconds, as in Go's `time.Duration`); `time.Minute = 60 * 10^9`.
* Whether an operation can run (is not blocked on a lock) is captured by
  `enabledOp`, derived from which operation bodies execute
  `serviceMutex.Lock()` (`acquiresService`).
-/

/-- `UNBLOCKED = iota` (source line 15). -/
def UNBLOCKED : Nat := 0

/-- `BLOCKED` (source line 16). -/
def BLOCKED : Nat := 1

/-- `ErrCredentialsNotFound` (source line 19). -/
def ErrCredentialsNotFound : String := "credentials not found for the provided token"

/-- The `Credentials` record (source lines 21-26). Expiration is a wall-clock
instant in nanoseconds. -/
structure Credentials where
  AwsKey : String
  AwsSecret : String
  AwsSession : String
  Expiration : Nat
deriving DecidableEq, Repr

/-- 16 minutes in nanoseconds: `16 * time.Minute` (source line 62). -/
def sixteenMinutes : Nat := 16 * 60 * 1000000000

/-- The state of a `credentialsServiceImpl` (source lines 36-41): the map, the
held/free status of the service mutex, and the state flag. The content mutex
is released before every operation returns, so it is not part of the state. -/
structure SvcState where
  credentials : List (String × Credentials)
  serviceMutex : Bool
  currentState : Nat
deriving DecidableEq, Repr

/-- `NewCredentialsService` (source lines 43-52): empty map, both mutexes
free, state `UNBLOCKED`. -/
def NewCredentialsService : SvcState :=
  { credentials := [], serviceMutex := false, currentState := UNBLOCKED }

/-- Look up a key in the association list, mirroring `c.credentials[token]`. -/
def lookupToken (l : List (String × Credentials)) (t : String) : Option Credentials :=
  match l with
  | [] => none
  | (k, v) :: rest => if k == t then some v else lookupToken rest t

/-- `c.credentials[token] = v`: replace the entry for the key if present,
otherwise add one (a Go map assignment). -/
def setEntry (l : List (String × Credentials)) (t : String) (c : Credentials) :
    List (String × Credentials) :=
  match l with
  | [] => [(t, c)]
  | (k, v) :: rest => if k == t then (t, c) :: rest else (k, v) :: setEntry rest t c

/-- Number of entries of the list carrying a given key (a Go map always has
at most one). -/
def countKey (l : List (String × Credentials)) (t : String) : Nat :=
  (l.filter fun p => p.1 == t).length

/-- `SetCredentials` (source lines 54-64): under the content mutex, store a
fresh record for `token` whose expiration is `now + 16 minutes`. Touches
neither the service mutex nor the state flag. -/
def SetCredentials (token awsKey awsSecret awsSession : String) (now : Nat)
    (c : SvcState) : SvcState :=
  let cred : Credentials := ⟨awsKey, awsSecret, awsSession, now + sixteenMinutes⟩
  { c with credentials := setEntry c.credentials token cred }

/-- The body of `GetCredentials` once past both mutexes (source lines 73-77):
look the token up, returning a copy on success and `ErrCredentialsNotFound`
otherwise. -/
def GetCredentials (c : SvcState) (token : String) : Except String Credentials :=
  match lookupToken c.credentials token with
  | some credentials => .ok credentials
  | none => .error ErrCredentialsNotFound

/-- `BlockService` (source lines 80-91) with an explicit record of whether the
call executed `serviceMutex.Lock()`: early return when already `BLOCKED`,
otherwise acquire the gate (leaving it held) and flip the flag. -/
def BlockServiceR (c : SvcState) : SvcState × Bool :=
  if c.currentState == BLOCKED then (c, false)
  else ({ c with serviceMutex := true, currentState := BLOCKED }, true)

/-- `BlockService`, state change only. -/
def BlockService (c : SvcState) : SvcState := (BlockServiceR c).1

/-- `UnblockService` (source lines 93-104) with an explicit record of whether
the call executed `serviceMutex.Unlock()`: early return when already
`UNBLOCKED`, otherwise flip the flag and release the gate. -/
def UnblockServiceR (c : SvcState) : SvcState × Bool :=
  if c.currentState == UNBLOCKED then (c, false)
  else ({ c with currentState := UNBLOCKED, serviceMutex := false }, true)

/-- `UnblockService`, state change only. -/
def UnblockService (c : SvcState) : SvcState := (UnblockServiceR c).1

/-- The rotation error `fmt.Errorf("there are %d set of credentials", mapSize)`
(source line 109). -/
def rotationErrMsg (n : Nat) : String := s!"there are {n} set of credentials"

/-- `UpdateCredentials` (source lines 106-119): if the map does not hold
exactly one entry, return the error naming the actual count and leave the
state untouched; otherwise rewrite the sole token via `SetCredentials`.
(With exactly one entry, the `for key := range` loop yields that entry's
key.) -/
def UpdateCredentials (awsKey awsSecret awsSession : String) (now : Nat)
    (c : SvcState) : SvcState × Option String :=
  match c.credentials with
  | [(token, _)] => (SetCredentials token awsKey awsSecret awsSession now c, none)
  | l => (c, some (rotationErrMsg l.length))

instance : DecidableEq (Except String Credentials) := fun
  | .ok a, .ok b =>
      if h : a = b then .isTrue (by rw [h])
      else .isFalse (by intro hh; cases hh; exact h rfl)
  | .ok _, .error _ => .isFalse (by intro h; cases h)
  | .error _, .ok _ => .isFalse (by intro h; cases h)
  | .error a, .error b =>
      if h : a = b then .isTrue (by rw [h])
      else .isFalse (by intro hh; cases hh; exact h rfl)

/-- The operations, named, for the lock-enabledness relation. -/
inductive OpName where
  | setOp
  | getOp
  | blockOp
  | unblockOp
deriving DecidableEq, Repr

/-- Whether the body of an operation executes `serviceMutex.Lock()` from the
given state: `SetCredentials` and `UnblockService` never do; `GetCredentials`
always does (source line 67); `BlockService` does unless its early-return
guard fires (source lines 81-85). -/
def acquiresService (c : SvcState) : OpName → Bool
  | .setOp => false
  | .getOp => true
  | .blockOp => !(c.currentState == BLOCKED)
  | .unblockOp => false

/-- An operation is enabled (can run to completion without waiting) iff it
does not try to lock the service mutex while the mutex is held. The content
mutex never stays held between operations, so it cannot block anything
across steps. -/
def enabledOp (c : SvcState) (op : OpName) : Bool :=
  !(acquiresService c op && c.serviceMutex)

/-- A pending `SetCredentials` request (the writes that may happen while the
service is blocked). -/
structure SetReq where
  token : String
  awsKey : String
  awsSecret : String
  awsSession : String
  now : Nat
deriving DecidableEq, Repr

/-- Run a sequence of `SetCredentials` calls. -/
def applySets (reqs : List SetReq) (c : SvcState) : SvcState :=
  reqs.foldl (fun s r => SetCredentials r.token r.awsKey r.awsSecret r.awsSession r.now s) c

/-! ## A heap-cell view of GetCredentials' return value

`GetCredentials` returns `&credentials` where `credentials, ok :=
c.credentials[token]` (source lines 73-75): the Go map access copies the map
value into a fresh local, and taking its address makes that copy escape to a
fresh heap cell. To state that mutating through the returned pointer cannot
touch the store, we refine the map to a heap of `Credentials` cells (addresses
are indices into `cells`) with the store mapping each token to the address of
its record. -/

/-- Heap of credential cells plus the token-to-address store. -/
structure MemState where
  cells : List Credentials
  store : List (String × Nat)
deriving DecidableEq, Repr

/-- Address of the record held for a token, if any. -/
def lookupAddr (l : List (String × Nat)) (t : String) : Option Nat :=
  match l with
  | [] => none
  | (k, a) :: rest => if k == t then some a else lookupAddr rest t

/-- `GetCredentials` in the heap view: read the cell the store points to,
copy it into a freshly allocated cell (the escaped local `credentials` of
source line 73), and return the new cell's address (`&credentials`, source
line 74). -/
def GetCredentialsPtr (ms : MemState) (token : String) : Option (MemState × Nat) :=
  match lookupAddr ms.store token with
  | none => none
  | some a =>
    match ms.cells[a]? with
    | none => none
    | some credentials => some (⟨ms.cells ++ [credentials], ms.store⟩, ms.cells.length)

/-- Mutate the cell at an address (what a caller can do through the returned
pointer). -/
def writeCell (ms : MemState) (a : Nat) (c : Credentials) : MemState :=
  ⟨ms.cells.set a c, ms.store⟩

/-- The credential record the component itself holds for a token. -/
def storedCredential (ms : MemState) (token : String) : Option Credentials :=
  match lookupAddr ms.store token with
  | none => none
  | some a => ms.cells[a]?

/-! ## Helper lemmas about the store operations -/

theorem lookupToken_setEntry_self (l : List (String × Credentials)) (t : String)
    (c : Credentials) : lookupToken (setEntry l t c) t = some c := by
  induction l with
  | nil => simp [setEntry, lookupToken]
  | cons p rest ih =>
    obtain ⟨k, v⟩ := p
    by_cases h : k = t
    · simp [setEntry, h, lookupToken]
    · simp [setEntry, h, lookupToken, ih]

theorem lookupToken_setEntry_ne (l : List (String × Credentials)) (t tt : String)
    (c : Credentials) (h : t ≠ tt) :
    lookupToken (setEntry l t c) tt = lookupToken l tt := by
  induction l with
  | nil => simp [setEntry, lookupToken, h]
  | cons p rest ih =>
    obtain ⟨k, v⟩ := p
    by_cases hk : k = t
    · subst hk
      simp [setEntry, lookupToken, h]
    · simp [setEntry, hk, lookupToken, ih]

theorem countKey_setEntry_le_one (l : List (String × Credentials)) (t : String)
    (c : Credentials) (hle : countKey l t ≤ 1) : countKey (setEntry l t c) t = 1 := by
  induction l with
  | nil => simp [setEntry, countKey]
  | cons p rest ih =>
    obtain ⟨k, v⟩ := p
    by_cases h : k = t
    · subst h
      simp only [setEntry, countKey, List.filter_cons, beq_self_eq_true, if_true,
        List.length_cons] at hle ⊢
      omega
    · have hk : (k == t) = false := by simp [h]
      have hle2 : countKey rest t ≤ 1 := by
        simpa [countKey, List.filter_cons, hk] using hle
      simpa [setEntry, hk, countKey, List.filter_cons] using ih hle2

theorem SetCredentials_serviceMutex (token k s ss : String) (now : Nat) (c : SvcState) :
    (SetCredentials token k s ss now c).serviceMutex = c.serviceMutex := rfl

theorem SetCredentials_currentState (token k s ss : String) (now : Nat) (c : SvcState) :
    (SetCredentials token k s ss now c).currentState = c.currentState := rfl

theorem applySets_serviceMutex (reqs : List SetReq) (c : SvcState) :
    (applySets reqs c).serviceMutex = c.serviceMutex := by
  induction reqs generalizing c with
  | nil => rfl
  | cons r rest ih => exact ih (SetCredentials r.token r.awsKey r.awsSecret r.awsSession r.now c)

theorem applySets_currentState (reqs : List SetReq) (c : SvcState) :
    (applySets reqs c).currentState = c.currentState := by
  induction reqs generalizing c with
  | nil => rfl
  | cons r rest ih => exact ih (SetCredentials r.token r.awsKey r.awsSecret r.awsSession r.now c)

theorem BlockService_currentState (c : SvcState) :
    (BlockService c).currentState = BLOCKED := by
  by_cases h : c.currentState = BLOCKED
  · simp [BlockService, BlockServiceR, beq_iff_eq, h]
  · simp [BlockService, BlockServiceR, beq_iff_eq, h]

/-! ## The claims -/

/-- C3: for every token and every `(key, secret, session)` triple,
`SetCredentials` followed immediately by `GetCredentials` for the same token,
with no block in effect, is enabled and returns exactly the written fields
with expiration `now + 16` minutes. -/
theorem credsvc_set_then_get (c : SvcState) (token k s ss : String) (now : Nat)
    (h : c.serviceMutex = false) :
    enabledOp (SetCredentials token k s ss now c) .getOp = true ∧
    GetCredentials (SetCredentials token k s ss now c) token =
      .ok ⟨k, s, ss, now + sixteenMinutes⟩ := by
  constructor
  · simp [enabledOp, acquiresService, SetCredentials, h]
  · simp [GetCredentials, SetCredentials, lookupToken_setEntry_self]

theorem credsvc_set_then_get_witness :
    enabledOp (SetCredentials "t" "AK" "SK" "ST" 7 NewCredentialsService) .getOp = true ∧
    GetCredentials (SetCredentials "t" "AK" "SK" "ST" 7 NewCredentialsService) "t" =
      .ok ⟨"AK", "SK", "ST", 7 + sixteenMinutes⟩ :=
  credsvc_set_then_get NewCredentialsService "t" "AK" "SK" "ST" 7 rfl

/-- C4: `GetCredentials` fails with `ErrCredentialsNotFound` exactly when the
store has no entry for the token, and that is the only error it can return. -/
theorem credsvc_get_error_iff_absent (c : SvcState) (token : String) :
    (GetCredentials c token = .error ErrCredentialsNotFound ↔
      lookupToken c.credentials token = none) ∧
    ∀ e, GetCredentials c token = .error e → e = ErrCredentialsNotFound := by
  unfold GetCredentials
  cases hl : lookupToken c.credentials token with
  | none =>
    refine ⟨by simp, ?_⟩
    intro e he
    simpa using he.symm
  | some cr =>
    refine ⟨by simp, ?_⟩
    intro e he
    simp at he

theorem credsvc_get_error_iff_absent_witness :
    GetCredentials NewCredentialsService "tok" = .error ErrCredentialsNotFound :=
  (credsvc_get_error_iff_absent NewCredentialsService "tok").1.mpr rfl

/-- C5: writing the same token twice leaves exactly one entry for it, and a
subsequent `GetCredentials` observes the second write's values. -/
theorem credsvc_set_twice_single_entry (c : SvcState) (token k1 s1 ss1 k2 s2 ss2 : String)
    (n1 n2 : Nat) (hle : countKey c.credentials token ≤ 1) :
    countKey (SetCredentials token k2 s2 ss2 n2
        (SetCredentials token k1 s1 ss1 n1 c)).credentials token = 1 ∧
    GetCredentials (SetCredentials token k2 s2 ss2 n2
        (SetCredentials token k1 s1 ss1 n1 c)) token =
      .ok ⟨k2, s2, ss2, n2 + sixteenMinutes⟩ := by
  constructor
  · exact countKey_setEntry_le_one _ token _
      (le_of_eq (countKey_setEntry_le_one c.credentials token _ hle))
  · simp [GetCredentials, SetCredentials, lookupToken_setEntry_self]

theorem credsvc_set_twice_single_entry_witness :
    countKey (SetCredentials "t" "K2" "S2" "T2" 9
        (SetCredentials "t" "K1" "S1" "T1" 4 NewCredentialsService)).credentials "t" = 1 ∧
    GetCredentials (SetCredentials "t" "K2" "S2" "T2" 9
        (SetCredentials "t" "K1" "S1" "T1" 4 NewCredentialsService)) "t" =
      .ok ⟨"K2", "S2", "T2", 9 + sixteenMinutes⟩ :=
  credsvc_set_twice_single_entry NewCredentialsService "t" "K1" "S1" "T1" "K2" "S2" "T2"
    4 9 (by decide)

/-- C9: `SetCredentials` for one token leaves the entry of any other token,
the state flag, and the service mutex unchanged. -/
theorem credsvc_set_frame (c : SvcState) (t tt k s ss : String) (now : Nat) (h : t ≠ tt) :
    lookupToken (SetCredentials t k s ss now c).credentials tt =
      lookupToken c.credentials tt ∧
    (SetCredentials t k s ss now c).currentState = c.currentState ∧
    (SetCredentials t k s ss now c).serviceMutex = c.serviceMutex := by
  exact ⟨lookupToken_setEntry_ne c.credentials t tt _ h, rfl, rfl⟩

theorem credsvc_set_frame_witness :
    lookupToken (SetCredentials "a" "K" "S" "T" 2
        (SetCredentials "b" "K0" "S0" "T0" 1 NewCredentialsService)).credentials "b" =
      lookupToken (SetCredentials "b" "K0" "S0" "T0" 1 NewCredentialsService).credentials "b" ∧
    (SetCredentials "a" "K" "S" "T" 2
        (SetCredentials "b" "K0" "S0" "T0" 1 NewCredentialsService)).currentState =
      (SetCredentials "b" "K0" "S0" "T0" 1 NewCredentialsService).currentState ∧
    (SetCredentials "a" "K" "S" "T" 2
        (SetCredentials "b" "K0" "S0" "T0" 1 NewCredentialsService)).serviceMutex =
      (SetCredentials "b" "K0" "S0" "T0" 1 NewCredentialsService).serviceMutex :=
  credsvc_set_frame (SetCredentials "b" "K0" "S0" "T0" 1 NewCredentialsService)
    "a" "b" "K" "S" "T" 2 (by decide)

/-- C10: whenever `UpdateCredentials` returns an error, the whole state
(store, flag, mutex) is unchanged. -/
theorem credsvc_update_error_frame (c : SvcState) (k s ss : String) (now : Nat) (e : String)
    (h : (UpdateCredentials k s ss now c).2 = some e) :
    (UpdateCredentials k s ss now c).1 = c := by
  rcases hcl : c.credentials with _ | ⟨⟨t0, c0⟩, _ | ⟨p2, rest2⟩⟩
  · simp [UpdateCredentials, hcl]
  · simp [UpdateCredentials, hcl] at h
  · simp [UpdateCredentials, hcl]

theorem credsvc_update_error_frame_witness :
    (UpdateCredentials "K" "S" "T" 5 NewCredentialsService).1 = NewCredentialsService :=
  credsvc_update_error_frame NewCredentialsService "K" "S" "T" 5
    (rotationErrMsg 0) rfl

/-- C2: `UpdateCredentials` reports the actual entry count ("there are 0 set
of credentials" when empty, "there are 2 set of credentials" with two tokens)
whenever the store does not hold exactly one token, leaving the state alone;
with exactly one token it replaces that token's record with the new fields and
a refreshed expiration. -/
theorem credsvc_update_rotation (c : SvcState) (k s ss : String) (now : Nat) :
    rotationErrMsg 0 = "there are 0 set of credentials" ∧
    rotationErrMsg 2 = "there are 2 set of credentials" ∧
    (c.credentials.length ≠ 1 →
      UpdateCredentials k s ss now c = (c, some (rotationErrMsg c.credentials.length))) ∧
    (∀ t0 c0, c.credentials = [(t0, c0)] →
      UpdateCredentials k s ss now c =
        ({ c with credentials := [(t0, ⟨k, s, ss, now + sixteenMinutes⟩)] }, none)) := by
  refine ⟨rfl, rfl, ?_, ?_⟩
  · intro hne
    rcases hcl : c.credentials with _ | ⟨⟨t0, c0⟩, _ | ⟨p2, rest2⟩⟩
    · simp [UpdateCredentials, hcl]
    · rw [hcl] at hne
      simp at hne
    · simp [UpdateCredentials, hcl]
  · intro t0 c0 hcl
    simp [UpdateCredentials, hcl, SetCredentials, setEntry]

theorem credsvc_update_rotation_witness :
    UpdateCredentials "K" "S" "T" 3 NewCredentialsService =
      (NewCredentialsService, some "there are 0 set of credentials") := by
  have h := credsvc_update_rotation NewCredentialsService "K" "S" "T" 3
  have h0 := h.2.2.1 (by decide)
  simpa [h.1, NewCredentialsService] using h0

/-- C1: once `BlockService` has returned, a `GetCredentials` call is not
enabled, and stays disabled across any sequence of `SetCredentials` calls
(which are themselves always enabled, blocked never); after `UnblockService`
runs, `GetCredentials` is enabled again. The hypothesis is the lock invariant
of every reachable state: when the flag says `BLOCKED`, the gate is held. -/
theorem credsvc_block_gate_blocks_reads (c : SvcState)
    (hinv : c.currentState = BLOCKED → c.serviceMutex = true) (reqs : List SetReq) :
    enabledOp (applySets reqs (BlockService c)) .getOp = false ∧
    enabledOp (applySets reqs (BlockService c)) .setOp = true ∧
    enabledOp (UnblockService (applySets reqs (BlockService c))) .getOp = true := by
  have hb : (BlockService c).serviceMutex = true := by
    by_cases h : c.currentState = BLOCKED
    · simpa [BlockService, BlockServiceR, beq_iff_eq, h] using hinv h
    · simp [BlockService, BlockServiceR, beq_iff_eq, h]
  refine ⟨?_, ?_, ?_⟩
  · simp [enabledOp, acquiresService, applySets_serviceMutex, hb]
  · simp [enabledOp, acquiresService]
  · have h1 : (applySets reqs (BlockService c)).currentState = BLOCKED := by
      rw [applySets_currentState]
      exact BlockService_currentState c
    simp [UnblockService, UnblockServiceR, beq_iff_eq, h1, BLOCKED, UNBLOCKED,
      enabledOp, acquiresService]

theorem credsvc_block_gate_blocks_reads_witness :
    enabledOp (applySets [⟨"t", "AK", "SK", "ST", 3⟩]
        (BlockService NewCredentialsService)) .getOp = false ∧
    enabledOp (applySets [⟨"t", "AK", "SK", "ST", 3⟩]
        (BlockService NewCredentialsService)) .setOp = true ∧
    enabledOp (UnblockService (applySets [⟨"t", "AK", "SK", "ST", 3⟩]
        (BlockService NewCredentialsService))) .getOp = true :=
  credsvc_block_gate_blocks_reads NewCredentialsService (by decide)
    [⟨"t", "AK", "SK", "ST", 3⟩]

/-- C6: a second `BlockService` right after a first one is an idempotent
no-op: the state stays `BLOCKED` and unchanged, the second call never
executes `serviceMutex.Lock()`, and it is enabled (returns rather than
deadlocking). -/
theorem credsvc_block_idempotent (c : SvcState) :
    BlockService (BlockService c) = BlockService c ∧
    (BlockService c).currentState = BLOCKED ∧
    (BlockServiceR (BlockService c)).2 = false ∧
    acquiresService (BlockService c) .blockOp = false ∧
    enabledOp (BlockService c) .blockOp = true := by
  have hbs := BlockService_currentState c
  refine ⟨?_, hbs, ?_, ?_, ?_⟩
  · generalize hB : BlockService c = b at hbs ⊢
    simp [BlockService, BlockServiceR, beq_iff_eq, hbs]
  · simp [BlockServiceR, beq_iff_eq, hbs]
  · simp [acquiresService, beq_iff_eq, hbs]
  · simp [enabledOp, acquiresService, beq_iff_eq, hbs]

/-- C7: `UnblockService` on an already `UNBLOCKED` state is a no-op: the state
is unchanged, `serviceMutex.Unlock()` is never executed (so the gate is not
double-released), and the call is enabled. -/
theorem credsvc_unblock_noop_when_unblocked (c : SvcState)
    (h : c.currentState = UNBLOCKED) :
    UnblockServiceR c = (c, false) ∧ enabledOp c .unblockOp = true := by
  constructor
  · simp [UnblockServiceR, beq_iff_eq, h]
  · simp [enabledOp, acquiresService]

theorem credsvc_unblock_noop_when_unblocked_witness :
    UnblockServiceR NewCredentialsService = (NewCredentialsService, false) ∧
    enabledOp NewCredentialsService .unblockOp = true :=
  credsvc_unblock_noop_when_unblocked NewCredentialsService rfl

/-- C8: the pointer `GetCredentials` returns addresses a fresh copy: writing
any value through it changes that cell only, leaving the record the store
holds for the token exactly as before. -/
theorem credsvc_get_returns_copy (ms ms2 : MemState) (token : String) (addr : Nat)
    (v : Credentials) (h : GetCredentialsPtr ms token = some (ms2, addr)) :
    storedCredential (writeCell ms2 addr v) token = storedCredential ms token ∧
    (writeCell ms2 addr v).cells[addr]? = some v := by
  unfold GetCredentialsPtr at h
  cases ha : lookupAddr ms.store token with
  | none => simp [ha] at h
  | some a =>
    simp only [ha] at h
    cases hc : ms.cells[a]? with
    | none => simp [hc] at h
    | some cred =>
      simp only [hc, Option.some.injEq, Prod.mk.injEq] at h
      obtain ⟨h2, h3⟩ := h
      subst h2
      subst h3
      obtain ⟨hlt, _⟩ := List.getElem?_eq_some_iff.mp hc
      constructor
      · simp only [storedCredential, writeCell, ha]
        rw [List.getElem?_set_ne (by omega), List.getElem?_append_left hlt]
      · simp only [writeCell]
        rw [List.getElem?_set_self (by simp)]

theorem credsvc_get_returns_copy_witness :
    storedCredential
        (writeCell ⟨[⟨"AK", "SK", "ST", 0⟩, ⟨"AK", "SK", "ST", 0⟩], [("tok", 0)]⟩ 1
          ⟨"X", "Y", "Z", 9⟩) "tok" =
      storedCredential ⟨[⟨"AK", "SK", "ST", 0⟩], [("tok", 0)]⟩ "tok" ∧
    (writeCell ⟨[⟨"AK", "SK", "ST", 0⟩, ⟨"AK", "SK", "ST", 0⟩], [("tok", 0)]⟩ 1
        ⟨"X", "Y", "Z", 9⟩).cells[1]? = some ⟨"X", "Y", "Z", 9⟩ :=
  credsvc_get_returns_copy ⟨[⟨"AK", "SK", "ST", 0⟩], [("tok", 0)]⟩
    ⟨[⟨"AK", "SK", "ST", 0⟩, ⟨"AK", "SK", "ST", 0⟩], [("tok", 0)]⟩ "tok" 1
    ⟨"X", "Y", "Z", 9⟩ (by decide)
